import Mathlib

/-!
Verification development for the netdoc discovery-and-ingestion pipeline.

Shallow embedding of:
- `src/netdoc/ingestors/netmiko_cisco_ios_show_inventory.py` (device identity ingestor),
- `src/netdoc/discoverers/json_vmware_vsphere.py` (`api_query` result shaping and the
  `discovery` result-recording / host-marking loop),
- `src/scripts/log_ingest.py` (the replay/batch tool's log selection and ingest loop).

Python `dict`s with a fixed key set become structures (a key that a branch leaves
unset becomes an `Option` field); Python exceptions become `Except PyError`;
Python attribute-presence probing (`hasattr`) becomes a sum type or a `Bool` flag
carried by the source record.
-/

namespace Netdoc

/-! ## Python string helpers

`leadsWith pat s` is true when `pat` is an initial segment of `s`;
`containsSub pat s` models Python's `pat in s` substring test;
`pyLower` models `str.lower()` (per-character ASCII lowering). -/

def leadsWith : List Char → List Char → Bool
  | [], _ => true
  | _ :: _, [] => false
  | a :: as, b :: bs => a == b && leadsWith as bs

def containsSub (pat : List Char) : List Char → Bool
  | [] => leadsWith pat []
  | c :: rest => leadsWith pat (c :: rest) || containsSub pat rest

def pyLower (s : String) : List Char :=
  s.data.map Char.toLower

/-- Models `"chassis" in part_description.lower()` from the ingestor. -/
def hasChassis (s : String) : Bool :=
  containsSub "chassis".data (pyLower s)

/-- Python truthiness of an optional string (`None` and `""` are falsy). -/
def truthy : Option String → Bool
  | none => false
  | some s => s != ""

/-- Python runtime errors raised by the embedded code paths. -/
inductive PyError where
  | attributeError
  | indexError
  | nameError
deriving Repr, DecidableEq

/-! ## src/netdoc/ingestors/netmiko_cisco_ios_show_inventory.py -/

def MANUFACTURER : String := "Cisco"

def DEFAULT_MODEL : String := "Cisco Unknown device"

/-- One record of `log.parsed_output` (ntc-templates `show inventory` row).
`item.get(k)` returns `none` when the key is missing; a present-but-`None`
value is also `none`. -/
structure InvItem where
  name : Option String
  sn : Option String
  pid : Option String
deriving Repr, DecidableEq

/-- The Device fields this ingestor touches (`netdoc.schemas.device`). -/
structure Device where
  serial : Option String
  manufacturer : Option String
  model : Option String
deriving Repr, DecidableEq

/-- The DiscoveryLog fields the ingestor reads and writes. -/
structure InvLog where
  parsed_output : List InvItem
  ingested : Bool
deriving Repr, DecidableEq

/-- Modelled from the spec: `netdoc.schemas.device.update` is not under `src/`;
per §4.3 an ingestor's update is upsert-by-identity with field updates applied
as "set if present in source" (a `none` argument leaves the stale field, a
present value always wins). `manufacturer` is always passed as a plain string
by this ingestor, so it is always set. -/
def device_update (dev : Device) (serial : Option String) (manufacturer : String)
    (model_keyword : Option String) : Device :=
  { serial := match serial with
      | some s => some s
      | none => dev.serial
    manufacturer := some manufacturer
    model := match model_keyword with
      | some m => some m
      | none => dev.model }

/-- The `for item in log.parsed_output` loop: walk the records; reading
`item.get("name").lower()` raises `AttributeError` when `name` is `None`;
the first record whose name contains "chassis" ends the loop (`break`)
carrying that record's `sn` and `pid`. -/
def findChassis : List InvItem → Except PyError (Option (Option String × Option String))
  | [] => .ok none
  | item :: rest =>
    match item.name with
    | none => .error .attributeError
    | some n =>
      if hasChassis n then .ok (some (item.sn, item.pid))
      else findChassis rest

/-- The serial/model computation of `ingest`: the chassis scan, then the
`part_number is DEFAULT_MODEL` fallback to the first record (which indexes
`parsed_output[0]`, an `IndexError` on an empty list, and requires truthy
`name`, `sn` and `pid` to be used). The `is` identity test on `DEFAULT_MODEL`
holds exactly when no chassis record was found, since that is the only path
leaving `part_number` bound to the `DEFAULT_MODEL` object. -/
def computeParts (items : List InvItem) :
    Except PyError (Option String × Option String) :=
  match findChassis items with
  | .error e => .error e
  | .ok (some (sn, pid)) => .ok (sn, pid)
  | .ok none =>
    match items with
    | [] => .error .indexError
    | item :: _ =>
      if truthy item.name && truthy item.sn && truthy item.pid then
        .ok (item.sn, item.pid)
      else
        .ok (none, some DEFAULT_MODEL)

/-- `ingest(log)` of the show-inventory ingestor: compute serial and model
keyword from `parsed_output`, call `device.update(device_o, serial=...,
manufacturer=MANUFACTURER, model_keyword=...)`, then set `log.ingested = True`
and save. An uncaught Python error leaves both the device and the log
unchanged. -/
def ingest (device_o : Device) (log : InvLog) : Except PyError (Device × InvLog) :=
  match computeParts log.parsed_output with
  | .error e => .error e
  | .ok (part_serial_number, part_number) =>
    .ok (device_update device_o part_serial_number MANUFACTURER part_number,
         { log with ingested := true })

/-- One forced (re-)ingestion pass over the pair (device, log): on success the
updated state, on a raised error the unchanged state. -/
def applyIngest (s : Device × InvLog) : Device × InvLog :=
  match ingest s.1 s.2 with
  | .ok s' => s'
  | .error _ => s

/-! ## src/netdoc/discoverers/json_vmware_vsphere.py — `api_query`

Virtual-machine NIC records. A hardware device of a VM either has no
`macAddress` attribute (not a network adapter, skipped via the caught
`AttributeError`) or carries one plus a backing; the backing either has a
`port` attribute (dvSwitch) or is a host-network backing (vSwitch). -/

/-- The two shapes of `hardware.backing` the code probes with
`hasattr(hardware.backing, "port")`. -/
inductive NicBacking where
  /-- Distributed-switch backing: `backing.port.portgroupKey` and
  `backing.port.portKey`. -/
  | dvPort (portgroupKey : String) (portKey : String)
  /-- Host-network backing: `backing.network` and `backing.deviceName`. -/
  | network (networkRef : String) (deviceName : String)
deriving Repr, DecidableEq

/-- One entry of `vm.config.hardware.device`; `macAddress = none` models the
absence of the attribute. -/
structure VmHardware where
  macAddress : Option String
  label : String
  connected : Bool
deriving Repr, DecidableEq

/-- The backing of a hardware device, separated so a non-NIC still has a field
to ignore. -/
structure VmHardwareDev where
  hw : VmHardware
  backing : NicBacking
deriving Repr, DecidableEq

/-- The `nic_data` dict appended to `vm_data["nics"]`. -/
structure VmNicData where
  mac_address : String
  label : String
  connected : String
  switch_type : String
  portgroup_id : String
  portgroup_name : Option String
  port : Option String
deriving Repr, DecidableEq

/-- Models Python `str` on a bool (`str(hardware.connectable.connected)`). -/
def pyStrOfBool (b : Bool) : String :=
  if b then "True" else "False"

/-- The body of `for hardware in vm.config.hardware.device`: skip records
without `macAddress`, then branch on the backing and populate only the fields
of the applicable backing, leaving the others `None`. -/
def buildNicData (d : VmHardwareDev) : Option VmNicData :=
  match d.hw.macAddress with
  | none => none
  | some mac =>
    match d.backing with
    | .dvPort portgroupKey portKey =>
      some { mac_address := mac
             label := d.hw.label
             connected := pyStrOfBool d.hw.connected
             switch_type := "dvswitch"
             portgroup_id := portgroupKey
             portgroup_name := none
             port := some portKey }
    | .network networkRef deviceName =>
      some { mac_address := mac
             label := d.hw.label
             connected := pyStrOfBool d.hw.connected
             switch_type := "vswitch"
             portgroup_id := networkRef
             portgroup_name := some deviceName
             port := none }

/-- The complete `vm_data["nics"]` list built from a VM's hardware devices. -/
def vmNics (devs : List VmHardwareDev) : List VmNicData :=
  devs.filterMap buildNicData

/-! ### dvSwitch portgroups and the leaked `portgroup_data` variable

The host loop's last statement block builds, for each entry of
`host.config.network.portgroup`, a dict bound to the variable
`portgroup_data`. Python `for` variables leak, so after the host loop
`portgroup_data` still refers to the dict built for the last host portgroup
processed (or is unbound when none was). The dvSwitch portgroup loop then
builds its fresh dict under the misspelled name `porgroup_data` but reads and
stores `portgroup_data`. -/

/-- A source entry of `host.config.network.portgroup`. -/
structure HostPortgroupSrc where
  key : String
  specName : String
  vswitchRef : String
  vswitchName : String
  vlanId : Int
deriving Repr, DecidableEq

/-- A portgroup dict. Host portgroup dicts populate every field; the dvSwitch
loop's fresh dict has only `id`, `name`, `vlan`, modelled by `none` in the
vswitch fields. -/
structure PortgroupData where
  id : String
  name : String
  vswitch_id : Option String
  vswitch_name : Option String
  vswitch_type : Option String
  vlan : Option Int
deriving Repr, DecidableEq

/-- The dict built for one host portgroup (stored into
`host_data["portgroups"]` and — via leakage — the last one is what the
dvSwitch loop later reads as `portgroup_data`). -/
def hostPortgroupData (pg : HostPortgroupSrc) : PortgroupData :=
  { id := pg.key
    name := pg.specName
    vswitch_id := some pg.vswitchRef
    vswitch_name := some pg.vswitchName
    vswitch_type := some "vswitch"
    vlan := some pg.vlanId }

/-- Value of the leaked `portgroup_data` variable once every host has been
processed: the dict of the last host portgroup over all hosts, `none` when no
host had a portgroup (the name is then unbound). -/
def leakedAfterHosts (hostPortgroupLists : List (List HostPortgroupSrc)) :
    Option PortgroupData :=
  hostPortgroupLists.flatten.foldl (fun _acc pg => some (hostPortgroupData pg)) none

/-- A source entry of `dvswitch.portgroup`: its `str()` reference, `name`,
whether `hasattr(portgroup, "vlanId")` holds, and the value of
`portgroup.config.defaultPortConfig.vlan.vlanId`. -/
structure DvPortgroupSrc where
  ref : String
  name : String
  hasVlanId : Bool
  configVlanId : Int
deriving Repr, DecidableEq

/-- A source entry of the `DistributedVirtualSwitch` container view. -/
structure DvSwitchSrc where
  ref : String
  name : String
  status : String
  portgroups : List DvPortgroupSrc
deriving Repr, DecidableEq

/-- The `dvswitch_data` dict: id, name, status and the portgroups dict
(insertion-ordered association list, later insert on an existing key
overwrites in place). -/
structure DvSwitchData where
  id : String
  name : String
  status : String
  portgroups : List (String × PortgroupData)
deriving Repr, DecidableEq

/-- Python dict assignment `d[k] = v` on an insertion-ordered dict. -/
def dictInsert (k : String) (v : PortgroupData) :
    List (String × PortgroupData) → List (String × PortgroupData)
  | [] => [(k, v)]
  | (k', v') :: rest =>
    if k' == k then (k, v) :: rest else (k', v') :: dictInsert k v rest

/-- The `for portgroup in dvswitch.portgroup` loop. Each iteration builds the
fresh dict under the misspelled `porgroup_data` (never read again), then
reads the leaked `portgroup_data`: unbound → `NameError`; otherwise, when
`hasattr(portgroup, "vlanId")`, mutates its `vlan` field, and stores it into
the dvswitch portgroups dict under its own (stale) id. Returns the filled
dict together with the leaked variable's final value. -/
def dvPortgroupsLoop (acc : List (String × PortgroupData))
    (leaked : Option PortgroupData) :
    List DvPortgroupSrc →
      Except PyError (List (String × PortgroupData) × Option PortgroupData)
  | [] => .ok (acc, leaked)
  | pg :: rest =>
    let _porgroup_data : PortgroupData :=
      { id := pg.ref, name := pg.name, vswitch_id := none, vswitch_name := none
        vswitch_type := none, vlan := none }
    match leaked with
    | none => .error .nameError
    | some d =>
      let d' := if pg.hasVlanId then { d with vlan := some pg.configVlanId } else d
      dvPortgroupsLoop (dictInsert d'.id d' acc) (some d') rest

/-- The `for dvswitch in dvswitches` loop, threading the leaked
`portgroup_data` variable across switches. -/
def dvSwitchesLoop (acc : List (String × DvSwitchData))
    (leaked : Option PortgroupData) :
    List DvSwitchSrc → Except PyError (List (String × DvSwitchData))
  | [] => .ok acc
  | dvs :: rest =>
    match dvPortgroupsLoop [] leaked dvs.portgroups with
    | .error e => .error e
    | .ok (pgs, leaked') =>
      dvSwitchesLoop
        (acc ++ [(dvs.ref, { id := dvs.ref, name := dvs.name, status := dvs.status,
                             portgroups := pgs })])
        leaked' rest

/-- The "dvswitches" half of `api_query`'s return value, given each host's
`config.network.portgroup` list (which determines the leaked variable) and
the dvSwitch container view. -/
def apiQueryDvSwitches (hostPortgroupLists : List (List HostPortgroupSrc))
    (dvswitches : List DvSwitchSrc) : Except PyError (List (String × DvSwitchData)) :=
  dvSwitchesLoop [] (leakedAfterHosts hostPortgroupLists) dvswitches

/-! ## src/netdoc/discoverers/json_vmware_vsphere.py — `discovery`

The result-processing loop walks `aggregated_results` (one `MultiResult` —
a list of `Result`s — per host task), skips the wrapper `Result` named
`"multiple_tasks"`, creates one DiscoveryLog per remaining result, and tracks
host addresses and failed host addresses; afterwards every tracked address
that is not in the failed list is marked `discovered=True`. A query result's
`name` is `json.dumps(details)`; `json.loads` in the loop recovers the same
details, modelled as carrying the details record directly (the wrapper's
plain name `"multiple_tasks"` is never such a payload). -/

/-- The `details` dict built in `multiple_tasks`. -/
structure Details where
  command : String
  template : String
  order : Int
  enable : Bool
  supported : Bool
  verify_cert : Bool
deriving Repr, DecidableEq

/-- The `name` of a nornir `Result`: the `"multiple_tasks"` wrapper or the
JSON-serialized details of an `api_query` run. -/
inductive ResultName where
  | multipleTasks
  | taskDetails (d : Details)
deriving Repr, DecidableEq

/-- One nornir `Result`: its name, the host's address
(`result.host.dict().get("hostname")`, also the Discoverable's address), the
failure flag, and `json.dumps(result.result)` — the serialized captured
output or error payload. -/
structure NornirResult where
  resName : ResultName
  hostname : String
  failed : Bool
  output : String
deriving Repr, DecidableEq

/-- The row handed to `discoverylog.create` (the Discoverable is looked up by
address, so the address stands for `discoverable_id`; `details` is passed
wholesale as well). -/
structure CreatedLog where
  command : String
  discoverable_address : String
  raw_output : String
  template : String
  order : Int
  details : Details
deriving Repr, DecidableEq

/-- The log row created for one non-wrapper result. -/
def mkCreatedLog (d : Details) (r : NornirResult) : CreatedLog :=
  { command := d.command
    discoverable_address := r.hostname
    raw_output := r.output
    template := d.template
    order := d.order
    details := d }

/-- The inner `for result in multi_result` loop, threading the created-log
list, `host_list` and `failed_host_list` accumulators. -/
def processResultList (logs : List CreatedLog) (hosts failedHosts : List String) :
    List NornirResult → List CreatedLog × List String × List String
  | [] => (logs, hosts, failedHosts)
  | r :: rest =>
    match r.resName with
    | .multipleTasks => processResultList logs hosts failedHosts rest
    | .taskDetails d =>
      let logs' := logs ++ [mkCreatedLog d r]
      let hosts' := if hosts.contains r.hostname then hosts else hosts ++ [r.hostname]
      let failed' :=
        if r.failed && !(failedHosts.contains r.hostname) then
          failedHosts ++ [r.hostname]
        else failedHosts
      processResultList logs' hosts' failed' rest

/-- The outer loop over `aggregated_results.items()`. -/
def processAggregated (logs : List CreatedLog) (hosts failedHosts : List String) :
    List (List NornirResult) → List CreatedLog × List String × List String
  | [] => (logs, hosts, failedHosts)
  | multi :: rest =>
    let step := processResultList logs hosts failedHosts multi
    processAggregated step.1 step.2.1 step.2.2 rest

/-- All DiscoveryLog rows created by one `discovery` run. -/
def discoveryLogs (aggregated : List (List NornirResult)) : List CreatedLog :=
  (processAggregated [] [] [] aggregated).1

/-- The addresses updated with `discovered=True` by the final
`for address in host_list` loop: those not in `failed_host_list`. -/
def discoveredAddresses (aggregated : List (List NornirResult)) : List String :=
  let res := processAggregated [] [] [] aggregated
  res.2.1.filter (fun a => !(res.2.2.contains a))

/-- True when a result is a real query result, not the task wrapper. -/
def isQueryResult (r : NornirResult) : Bool :=
  match r.resName with
  | .multipleTasks => false
  | .taskDetails _ => true

/-- The log row a given result gives rise to (`none` for the wrapper). -/
def logOfResult (r : NornirResult) : Option CreatedLog :=
  match r.resName with
  | .multipleTasks => none
  | .taskDetails d => some (mkCreatedLog d r)

/-! ## src/scripts/log_ingest.py

The replay/batch tool: select `DiscoveryLog`s with the filter chain
(`parsed=True`, ordered by `order`, then address filter, then
`ingested=False` unless `REINGEST`, then id filter, then command filter) and
run `log_ingest` on each, marking success and stopping on the first failure
when `STOP_ON_ERROR`. -/

/-- The DiscoveryLog fields the script reads and writes. -/
structure DLog where
  id : Nat
  address : String
  command : String
  order : Int
  parsed : Bool
  ingested : Bool
deriving Repr, DecidableEq

/-- The queryset construction of the script for given `FILTERS`, `LOGS`,
`COMMAND`, `REINGEST` settings: each `if` applies its filter only when the
setting is non-empty (respectively, when `REINGEST` is false). -/
def selectLogs (allLogs : List DLog) (filters : List String) (logIds : List Nat)
    (command : String) (reingest : Bool) : List DLog :=
  let logs := (allLogs.filter (fun l => l.parsed)).mergeSort (fun a b => a.order ≤ b.order)
  let logs := if filters.isEmpty then logs
    else logs.filter (fun l => filters.contains l.address)
  let logs := if reingest then logs else logs.filter (fun l => !l.ingested)
  let logs := if logIds.isEmpty then logs
    else logs.filter (fun l => logIds.contains l.id)
  let logs := if command == "" then logs
    else logs.filter (fun l => l.command == command)
  logs

/-- `log.ingested = True; log.save()` after a successful `log_ingest`. -/
def markIngested (l : DLog) : DLog :=
  { l with ingested := true }

/-- Outcome of the script's `for log in logs` loop: which logs `log_ingest`
was invoked on, which were marked ingested and saved, which printed
"failed", and whether an exception propagated to the caller. -/
structure LoopResult where
  attempted : List DLog
  succeeded : List DLog
  failedLogs : List DLog
  raised : Bool
deriving Repr, DecidableEq

/-- The ingest loop: `log_ingest(log)` (modelled by the success predicate
`ok`, since `netdoc.utils.log_ingest` is an external collaborator), then mark
and save on success; on an exception print "failed" and, when
`STOP_ON_ERROR`, re-raise — which ends the loop with the remaining logs
untouched. -/
def runIngestLoop (ok : DLog → Bool) (stopOnError : Bool) : List DLog → LoopResult
  | [] => { attempted := [], succeeded := [], failedLogs := [], raised := false }
  | l :: rest =>
    if ok l then
      let r := runIngestLoop ok stopOnError rest
      { attempted := l :: r.attempted
        succeeded := markIngested l :: r.succeeded
        failedLogs := r.failedLogs
        raised := r.raised }
    else if stopOnError then
      { attempted := [l], succeeded := [], failedLogs := [l], raised := true }
    else
      let r := runIngestLoop ok stopOnError rest
      { attempted := l :: r.attempted
        succeeded := r.succeeded
        failedLogs := l :: r.failedLogs
        raised := r.raised }

/-! ## Theorems -/

/-- C10: for every log whose `parsed_output` is an empty record list, `ingest`
of netmiko_cisco_ios_show_inventory raises (`parsed_output[0]` is an
`IndexError`) before any call to `device.update`: the returned value is an
error, so the Device is unchanged and the log's `ingested` flag stays as it
was (in particular false). -/
theorem ingest_empty_parsed_output_raises (dev : Device) (b : Bool) :
    ingest dev { parsed_output := [], ingested := b } = .error .indexError := rfl

/-- Fields written by `device.update` are computed from the log alone, so
writing them twice is the same as writing them once. -/
theorem device_update_idem (dev : Device) (s : Option String) (m : String)
    (k : Option String) :
    device_update (device_update dev s m k) s m k = device_update dev s m k := by
  cases s <;> cases k <;> rfl

/-- C9: applying the show-inventory `ingest` twice (forced re-ingestion)
leaves the (Device, log) state exactly as one application does — the second
pass recomputes identical serial, manufacturer and model fields from the
unchanged `parsed_output`. -/
theorem show_inventory_ingest_idempotent (s : Device × InvLog) :
    applyIngest (applyIngest s) = applyIngest s := by
  obtain ⟨dev, log⟩ := s
  unfold applyIngest ingest
  cases h : computeParts log.parsed_output with
  | error e => simp [h]
  | ok parts =>
    obtain ⟨psn, pn⟩ := parts
    simp [h, device_update_idem]

/-- C2: every virtual NIC record produced by `api_query` has exactly one
backing shape: `switch_type="dvswitch"` with `portgroup_name=None` and a
non-null `port`, or `switch_type="vswitch"` with a named `portgroup_name`
and `port=None`; no record carries both a named portgroup and a non-null
port. -/
theorem vm_nic_backing_mutually_exclusive (devs : List VmHardwareDev) (nic : VmNicData)
    (h : nic ∈ vmNics devs) :
    ((nic.switch_type = "dvswitch" ∧ nic.portgroup_name = none ∧ ∃ p, nic.port = some p) ∨
     (nic.switch_type = "vswitch" ∧ (∃ n, nic.portgroup_name = some n) ∧ nic.port = none)) ∧
    ¬(∃ n p, nic.portgroup_name = some n ∧ nic.port = some p) := by
  obtain ⟨d, -, hb⟩ := List.mem_filterMap.mp h
  unfold buildNicData at hb
  cases hmac : d.hw.macAddress with
  | none => rw [hmac] at hb; exact absurd hb (by simp)
  | some mac =>
    rw [hmac] at hb
    cases hback : d.backing with
    | dvPort pgk pk =>
      rw [hback] at hb
      injection hb with hb
      subst hb
      refine ⟨Or.inl ⟨rfl, rfl, pk, rfl⟩, ?_⟩
      rintro ⟨n, p, hn, -⟩
      exact Option.noConfusion hn
    | network net dn =>
      rw [hback] at hb
      injection hb with hb
      subst hb
      refine ⟨Or.inr ⟨rfl, ⟨dn, rfl⟩, rfl⟩, ?_⟩
      rintro ⟨n, p, -, hp⟩
      exact Option.noConfusion hp

/-- A vSwitch-backed NIC of a sample VM. -/
def sampleVsHardware : VmHardwareDev :=
  { hw := { macAddress := some "00:50:56:aa:bb:cc", label := "Network adapter 1",
            connected := true }
    backing := .network "network-77" "VM Network" }

/-- The NIC record `buildNicData` produces for `sampleVsHardware`. -/
def sampleVsNic : VmNicData :=
  { mac_address := "00:50:56:aa:bb:cc", label := "Network adapter 1", connected := "True"
    switch_type := "vswitch", portgroup_id := "network-77"
    portgroup_name := some "VM Network", port := none }

/-- C2 witness: the invariant instantiated on a concrete vSwitch-backed NIC. -/
theorem vm_nic_backing_mutually_exclusive_witness :
    ((sampleVsNic.switch_type = "dvswitch" ∧ sampleVsNic.portgroup_name = none ∧
        ∃ p, sampleVsNic.port = some p) ∨
     (sampleVsNic.switch_type = "vswitch" ∧ (∃ n, sampleVsNic.portgroup_name = some n) ∧
        sampleVsNic.port = none)) ∧
    ¬(∃ n p, sampleVsNic.portgroup_name = some n ∧ sampleVsNic.port = some p) :=
  vm_nic_backing_mutually_exclusive [sampleVsHardware] sampleVsNic (by decide)

/-- A distributed vSwitch carrying one portgroup, as `api_query` reads it. -/
def sampleDvSwitch : DvSwitchSrc :=
  { ref := "dvs-21", name := "DSwitch", status := "green"
    portgroups := [{ ref := "dvportgroup-1010", name := "DPortGroup", hasVlanId := false,
                     configVlanId := 0 }] }

/-- A host vswitch portgroup whose dict is the last one the host loop builds. -/
def sampleHostPortgroup : HostPortgroupSrc :=
  { key := "key-vim.host.PortGroup-VM Network", specName := "VM Network"
    vswitchRef := "vim.host.VirtualSwitch:vSwitch0", vswitchName := "vSwitch0", vlanId := 7 }

/-- C3: the dvswitches half of `api_query` does not record each distributed
portgroup under its own id and name. The loop builds the fresh dict under the
misspelled variable `porgroup_data` but stores the stale `portgroup_data`
leaked from the host loop: with no preceding host portgroup the name is
unbound and a `NameError` is raised; with one, the stored entry is keyed by
the stale host portgroup's id and carries its name, not the distributed
portgroup's `"dvportgroup-1010"`/`"DPortGroup"`. -/
theorem dvswitch_portgroups_use_leaked_host_portgroup :
    apiQueryDvSwitches [] [sampleDvSwitch] = .error .nameError ∧
    apiQueryDvSwitches [[sampleHostPortgroup]] [sampleDvSwitch] =
      .ok [("dvs-21",
        { id := "dvs-21", name := "DSwitch", status := "green"
          portgroups := [("key-vim.host.PortGroup-VM Network",
                          hostPortgroupData sampleHostPortgroup)] })] :=
  ⟨rfl, rfl⟩

/-- The chassis scan returns the first chassis-named record's `sn`/`pid` when
every earlier record has a (non-`None`) name without "chassis" in it. -/
theorem findChassis_append (pre : List InvItem) (c : InvItem) (post : List InvItem)
    (hpre : ∀ item ∈ pre, ∃ nm, item.name = some nm ∧ hasChassis nm = false)
    (hc : ∃ nm, c.name = some nm ∧ hasChassis nm = true) :
    findChassis (pre ++ c :: post) = .ok (some (c.sn, c.pid)) := by
  induction pre with
  | nil =>
    obtain ⟨nm, hn, hch⟩ := hc
    simp [findChassis, hn, hch]
  | cons x xs ih =>
    obtain ⟨nm, hn, hch⟩ := hpre x (List.mem_cons_self x xs)
    simp only [List.cons_append, findChassis, hn, hch, Bool.false_eq_true, if_false]
    exact ih fun item hi => hpre item (List.mem_cons_of_mem x hi)

/-- The chassis scan finds nothing when every record has a (non-`None`) name
without "chassis" in it. -/
theorem findChassis_none (items : List InvItem)
    (h : ∀ item ∈ items, ∃ nm, item.name = some nm ∧ hasChassis nm = false) :
    findChassis items = .ok none := by
  induction items with
  | nil => rfl
  | cons x xs ih =>
    obtain ⟨nm, hn, hch⟩ := h x (List.mem_cons_self x xs)
    simp only [findChassis, hn, hch, Bool.false_eq_true, if_false]
    exact ih fun item hi => h item (List.mem_cons_of_mem x hi)

/-- C4: when `parsed_output` holds a chassis-named record (case-insensitive)
with `sn="ABC123"` and `pid="WS-C1"`, preceded only by named non-chassis
records, `ingest` updates the log's Device to `serial="ABC123"`,
model keyword `"WS-C1"`, and the constant manufacturer `"Cisco"`, and marks
the log ingested. -/
theorem show_inventory_chassis_sets_device_identity (dev : Device) (log : InvLog)
    (pre post : List InvItem) (c : InvItem)
    (hout : log.parsed_output = pre ++ c :: post)
    (hname : ∃ nm, c.name = some nm ∧ hasChassis nm = true)
    (hsn : c.sn = some "ABC123") (hpid : c.pid = some "WS-C1")
    (hpre : ∀ item ∈ pre, ∃ nm, item.name = some nm ∧ hasChassis nm = false) :
    ingest dev log =
      .ok ({ serial := some "ABC123", manufacturer := some MANUFACTURER,
             model := some "WS-C1" },
           { log with ingested := true }) := by
  have hfc := findChassis_append pre c post hpre hname
  simp [ingest, computeParts, hout, hfc, hsn, hpid, device_update]

/-- C4 witness: the spec's scenario — one chassis record between two
non-chassis records — on a blank device. -/
theorem show_inventory_chassis_sets_device_identity_witness :
    ingest { serial := none, manufacturer := none, model := none }
        { parsed_output :=
            [{ name := some "Fan 1", sn := some "FAN99", pid := some "FAN-MOD" },
             { name := some "Chassis", sn := some "ABC123", pid := some "WS-C1" },
             { name := some "Power Supply", sn := none, pid := none }]
          ingested := false } =
      .ok ({ serial := some "ABC123", manufacturer := some MANUFACTURER,
             model := some "WS-C1" },
           { parsed_output :=
               [{ name := some "Fan 1", sn := some "FAN99", pid := some "FAN-MOD" },
                { name := some "Chassis", sn := some "ABC123", pid := some "WS-C1" },
                { name := some "Power Supply", sn := none, pid := none }]
             ingested := true }) :=
  show_inventory_chassis_sets_device_identity
    { serial := none, manufacturer := none, model := none }
    { parsed_output :=
        [{ name := some "Fan 1", sn := some "FAN99", pid := some "FAN-MOD" },
         { name := some "Chassis", sn := some "ABC123", pid := some "WS-C1" },
         { name := some "Power Supply", sn := none, pid := none }]
      ingested := false }
    [{ name := some "Fan 1", sn := some "FAN99", pid := some "FAN-MOD" }]
    [{ name := some "Power Supply", sn := none, pid := none }]
    { name := some "Chassis", sn := some "ABC123", pid := some "WS-C1" }
    rfl ⟨"Chassis", rfl, by decide⟩ rfl rfl
    (by
      intro item hi
      rcases List.mem_singleton.mp hi with rfl
      exact ⟨"Fan 1", rfl, by decide⟩)

/-- C5: when no record is chassis-named (all names present) and the first
record has truthy `name`, `sn` and `pid`, `ingest` sets the Device's serial
and model from that first record's `sn` and `pid` (with the constant
manufacturer), not the default sentinel model. -/
theorem show_inventory_first_record_fallback (dev : Device) (log : InvLog)
    (first : InvItem) (rest : List InvItem)
    (hout : log.parsed_output = first :: rest)
    (hnoch : ∀ item ∈ log.parsed_output, ∃ nm, item.name = some nm ∧ hasChassis nm = false)
    (hn : truthy first.name = true) (hs : truthy first.sn = true)
    (hp : truthy first.pid = true) :
    ingest dev log =
      .ok ({ serial := first.sn, manufacturer := some MANUFACTURER, model := first.pid },
           { log with ingested := true }) := by
  have hfc : findChassis log.parsed_output = .ok none := findChassis_none _ hnoch
  rw [hout] at hfc
  cases hsn : first.sn with
  | none => rw [hsn] at hs; exact absurd hs (by simp [truthy])
  | some s =>
    cases hpid : first.pid with
    | none => rw [hpid] at hp; exact absurd hp (by simp [truthy])
    | some p =>
      rw [hsn] at hs
      rw [hpid] at hp
      simp [ingest, computeParts, hout, hfc, hn, hs, hp, hsn, hpid, device_update]

/-- C5 witness: two named non-chassis records, the first fully populated. -/
theorem show_inventory_first_record_fallback_witness :
    ingest { serial := none, manufacturer := none, model := none }
        { parsed_output :=
            [{ name := some "Supervisor", sn := some "SUP01", pid := some "WS-SUP" },
             { name := some "Fan 2", sn := some "FAN02", pid := some "FAN-MOD" }]
          ingested := false } =
      .ok ({ serial := some "SUP01", manufacturer := some MANUFACTURER,
             model := some "WS-SUP" },
           { parsed_output :=
               [{ name := some "Supervisor", sn := some "SUP01", pid := some "WS-SUP" },
                { name := some "Fan 2", sn := some "FAN02", pid := some "FAN-MOD" }]
             ingested := true }) :=
  show_inventory_first_record_fallback
    { serial := none, manufacturer := none, model := none }
    { parsed_output :=
        [{ name := some "Supervisor", sn := some "SUP01", pid := some "WS-SUP" },
         { name := some "Fan 2", sn := some "FAN02", pid := some "FAN-MOD" }]
      ingested := false }
    { name := some "Supervisor", sn := some "SUP01", pid := some "WS-SUP" }
    [{ name := some "Fan 2", sn := some "FAN02", pid := some "FAN-MOD" }]
    rfl
    (by
      intro item hi
      rcases List.mem_cons.mp hi with rfl | hi
      · exact ⟨"Supervisor", rfl, by decide⟩
      · rcases List.mem_singleton.mp hi with rfl
        exact ⟨"Fan 2", rfl, by decide⟩)
    (by decide) (by decide) (by decide)

/-- The created-log component of the inner result loop: one row per
non-wrapper result, appended in order, independent of the host accumulators. -/
theorem processResultList_fst (logs : List CreatedLog) (hosts failedHosts : List String)
    (rs : List NornirResult) :
    (processResultList logs hosts failedHosts rs).1 = logs ++ rs.filterMap logOfResult := by
  induction rs generalizing logs hosts failedHosts with
  | nil => simp [processResultList]
  | cons r rest ih =>
    cases hr : r.resName with
    | multipleTasks => simp [processResultList, hr, logOfResult, ih]
    | taskDetails d => simp [processResultList, hr, logOfResult, ih]

/-- The created-log component of the outer loop over `aggregated_results`. -/
theorem processAggregated_fst (logs : List CreatedLog) (hosts failedHosts : List String)
    (agg : List (List NornirResult)) :
    (processAggregated logs hosts failedHosts agg).1 =
      logs ++ agg.flatten.filterMap logOfResult := by
  induction agg generalizing logs hosts failedHosts with
  | nil => simp [processAggregated]
  | cons multi rest ih =>
    simp [processAggregated, ih, processResultList_fst, List.filterMap_append]

/-- A result contributes a log row exactly when it is not the wrapper. -/
theorem length_filterMap_logOfResult (rs : List NornirResult) :
    (rs.filterMap logOfResult).length = (rs.filter (fun r => isQueryResult r)).length := by
  induction rs with
  | nil => rfl
  | cons r rest ih =>
    cases hr : r.resName with
    | multipleTasks => simp [logOfResult, isQueryResult, hr, ih]
    | taskDetails d => simp [logOfResult, isQueryResult, hr, ih]

/-- C8: a discovery run creates exactly one DiscoveryLog per query result —
the per-host wrapper entry excepted — success or failure alike: the created
rows are precisely `mkCreatedLog` of each non-wrapper result, whose
`raw_output` is the serialized captured output or error payload and whose
command, template and order come from the query's details. -/
theorem discovery_one_log_per_query_result (agg : List (List NornirResult)) :
    discoveryLogs agg = agg.flatten.filterMap logOfResult ∧
    (discoveryLogs agg).length = (agg.flatten.filter (fun r => isQueryResult r)).length := by
  have h1 : discoveryLogs agg = agg.flatten.filterMap logOfResult := by
    simp [discoveryLogs, processAggregated_fst]
  exact ⟨h1, by rw [h1, length_filterMap_logOfResult]⟩

/-- Membership in the `host_list` accumulator after the inner result loop. -/
theorem mem_processResultList_hosts (logs : List CreatedLog)
    (hosts failedHosts : List String) (rs : List NornirResult) (a : String) :
    a ∈ (processResultList logs hosts failedHosts rs).2.1 ↔
      a ∈ hosts ∨ ∃ r ∈ rs, isQueryResult r = true ∧ r.hostname = a := by
  induction rs generalizing logs hosts failedHosts with
  | nil => simp [processResultList]
  | cons r rest ih =>
    rw [List.exists_mem_cons_iff]
    cases hr : r.resName with
    | multipleTasks =>
      have hq : isQueryResult r = false := by simp [isQueryResult, hr]
      simp only [processResultList, hr, ih, hq, Bool.false_eq_true, false_and, false_or]
    | taskDetails d =>
      have hq : isQueryResult r = true := by simp [isQueryResult, hr]
      simp only [processResultList, hr, ih, hq, true_and]
      by_cases hc : hosts.contains r.hostname
      · have hmem : r.hostname ∈ hosts := List.elem_iff.mp hc
        rw [if_pos hc]
        constructor
        · rintro (h | h)
          · exact Or.inl h
          · exact Or.inr (Or.inr h)
        · rintro (h | h | h)
          · exact Or.inl h
          · exact Or.inl (h ▸ hmem)
          · exact Or.inr h
      · rw [if_neg hc]
        constructor
        · rintro (h | h)
          · rcases List.mem_append.mp h with h' | h'
            · exact Or.inl h'
            · exact Or.inr (Or.inl (List.mem_singleton.mp h').symm)
          · exact Or.inr (Or.inr h)
        · rintro (h | h | h)
          · exact Or.inl (List.mem_append.mpr (Or.inl h))
          · exact Or.inl (List.mem_append.mpr (Or.inr (List.mem_singleton.mpr h.symm)))
          · exact Or.inr h

/-- Membership in the `failed_host_list` accumulator after the inner loop. -/
theorem mem_processResultList_failed (logs : List CreatedLog)
    (hosts failedHosts : List String) (rs : List NornirResult) (a : String) :
    a ∈ (processResultList logs hosts failedHosts rs).2.2 ↔
      a ∈ failedHosts ∨
        ∃ r ∈ rs, isQueryResult r = true ∧ r.hostname = a ∧ r.failed = true := by
  induction rs generalizing logs hosts failedHosts with
  | nil => simp [processResultList]
  | cons r rest ih =>
    rw [List.exists_mem_cons_iff]
    cases hr : r.resName with
    | multipleTasks =>
      have hq : isQueryResult r = false := by simp [isQueryResult, hr]
      simp only [processResultList, hr, ih, hq, Bool.false_eq_true, false_and, false_or]
    | taskDetails d =>
      have hq : isQueryResult r = true := by simp [isQueryResult, hr]
      simp only [processResultList, hr, ih, hq, true_and]
      cases hf : r.failed with
      | false =>
        simp only [Bool.false_and, if_false, Bool.false_eq_true, and_false, false_or]
      | true =>
        simp only [Bool.true_and, and_true]
        by_cases hc : failedHosts.contains r.hostname
        · have hmem : r.hostname ∈ failedHosts := List.elem_iff.mp hc
          rw [hc]
          simp only [Bool.not_true, if_false]
          constructor
          · rintro (h | h)
            · exact Or.inl h
            · exact Or.inr (Or.inr h)
          · rintro (h | h | h)
            · exact Or.inl h
            · exact Or.inl (h ▸ hmem)
            · exact Or.inr h
        · rw [Bool.not_eq_true] at hc
          rw [hc]
          simp only [Bool.not_false, if_true]
          constructor
          · rintro (h | h)
            · rcases List.mem_append.mp h with h' | h'
              · exact Or.inl h'
              · exact Or.inr (Or.inl (List.mem_singleton.mp h').symm)
            · exact Or.inr (Or.inr h)
          · rintro (h | h | h)
            · exact Or.inl (List.mem_append.mpr (Or.inl h))
            · exact Or.inl (List.mem_append.mpr (Or.inr (List.mem_singleton.mpr h.symm)))
            · exact Or.inr h

/-- Membership in `host_list` after the whole run. -/
theorem mem_processAggregated_hosts (logs : List CreatedLog)
    (hosts failedHosts : List String) (agg : List (List NornirResult)) (a : String) :
    a ∈ (processAggregated logs hosts failedHosts agg).2.1 ↔
      a ∈ hosts ∨ ∃ r ∈ agg.flatten, isQueryResult r = true ∧ r.hostname = a := by
  induction agg generalizing logs hosts failedHosts with
  | nil => simp [processAggregated]
  | cons multi rest ih =>
    simp only [processAggregated, ih, mem_processResultList_hosts, List.flatten_cons,
      List.mem_append]
    constructor
    · rintro ((h | ⟨r, hrm, hq⟩) | ⟨r, hrm, hq⟩)
      · exact Or.inl h
      · exact Or.inr ⟨r, Or.inl hrm, hq⟩
      · exact Or.inr ⟨r, Or.inr hrm, hq⟩
    · rintro (h | ⟨r, hrm | hrm, hq⟩)
      · exact Or.inl (Or.inl h)
      · exact Or.inl (Or.inr ⟨r, hrm, hq⟩)
      · exact Or.inr ⟨r, hrm, hq⟩

/-- Membership in `failed_host_list` after the whole run. -/
theorem mem_processAggregated_failed (logs : List CreatedLog)
    (hosts failedHosts : List String) (agg : List (List NornirResult)) (a : String) :
    a ∈ (processAggregated logs hosts failedHosts agg).2.2 ↔
      a ∈ failedHosts ∨
        ∃ r ∈ agg.flatten, isQueryResult r = true ∧ r.hostname = a ∧ r.failed = true := by
  induction agg generalizing logs hosts failedHosts with
  | nil => simp [processAggregated]
  | cons multi rest ih =>
    simp only [processAggregated, ih, mem_processResultList_failed, List.flatten_cons,
      List.mem_append]
    constructor
    · rintro ((h | ⟨r, hrm, hq⟩) | ⟨r, hrm, hq⟩)
      · exact Or.inl h
      · exact Or.inr ⟨r, Or.inl hrm, hq⟩
      · exact Or.inr ⟨r, Or.inr hrm, hq⟩
    · rintro (h | ⟨r, hrm | hrm, hq⟩)
      · exact Or.inl (Or.inl h)
      · exact Or.inl (Or.inr ⟨r, hrm, hq⟩)
      · exact Or.inr ⟨r, hrm, hq⟩

/-- C1 amended: after a discovery run, a host address is marked
`discovered=true` iff it produced at least one (non-wrapper) query result
and none of its query results failed; a host with any failed query is not
marked (the claim's "discovered even if other queries failed" does not hold,
see the counterexample). -/
theorem discovery_marks_discovered_iff_no_failed_query
    (agg : List (List NornirResult)) (a : String) :
    a ∈ discoveredAddresses agg ↔
      ((∃ r ∈ agg.flatten, isQueryResult r = true ∧ r.hostname = a) ∧
       ∀ r ∈ agg.flatten, isQueryResult r = true → r.hostname = a → r.failed = false) := by
  have hfilter : a ∈ discoveredAddresses agg ↔
      a ∈ (processAggregated [] [] [] agg).2.1 ∧
        a ∉ (processAggregated [] [] [] agg).2.2 := by
    unfold discoveredAddresses
    rw [List.mem_filter]
    simp
  rw [hfilter, mem_processAggregated_hosts, mem_processAggregated_failed]
  simp only [List.not_mem_nil, false_or]
  constructor
  · rintro ⟨hin, hnot⟩
    refine ⟨hin, ?_⟩
    intro r hrm hq hh
    by_contra hfail
    exact hnot ⟨r, hrm, hq, hh, by simpa using hfail⟩
  · rintro ⟨hin, hall⟩
    refine ⟨hin, ?_⟩
    rintro ⟨r, hrm, hq, hh, hf⟩
    have := hall r hrm hq hh
    rw [this] at hf
    exact Bool.noConfusion hf

/-- The single-query details used by the vSphere discoverer. -/
def pyVmomiDetails : Details :=
  { command := "pyVmomi", template := "pyVmomi", order := 0, enable := false,
    supported := true, verify_cert := true }

/-- A run in which host 10.0.0.9 has one successful and one failed query. -/
def mixedOutcomeRun : List (List NornirResult) :=
  [[{ resName := .multipleTasks, hostname := "10.0.0.9", failed := false, output := "" },
    { resName := .taskDetails pyVmomiDetails, hostname := "10.0.0.9", failed := false,
      output := "ok" },
    { resName := .taskDetails pyVmomiDetails, hostname := "10.0.0.9", failed := true,
      output := "err" }]]

/-- C1 counterexample: a host with one successful query and one failed query
is not marked discovered, refuting "discovered=true if at least one query for
that host succeeded, even if other queries for that host failed". -/
theorem discovery_any_success_not_marked_discovered :
    (∃ r ∈ mixedOutcomeRun.flatten,
        isQueryResult r = true ∧ r.hostname = "10.0.0.9" ∧ r.failed = false) ∧
    "10.0.0.9" ∉ discoveredAddresses mixedOutcomeRun := by
  constructor
  · decide
  · decide

/-- Every log the ingest loop attempts comes from its input sequence. -/
theorem runIngestLoop_attempted_sub (ok : DLog → Bool) (stopOnError : Bool)
    (logs : List DLog) :
    ∀ l ∈ (runIngestLoop ok stopOnError logs).attempted, l ∈ logs := by
  induction logs with
  | nil => simp [runIngestLoop]
  | cons x xs ih =>
    intro l hl
    unfold runIngestLoop at hl
    by_cases hx : ok x = true
    · rw [if_pos hx] at hl
      rcases List.mem_cons.mp hl with rfl | hl
      · exact List.mem_cons_self _ _
      · exact List.mem_cons_of_mem x (ih l hl)
    · rw [if_neg hx] at hl
      by_cases hstop : stopOnError = true
      · rw [if_pos hstop] at hl
        rcases List.mem_singleton.mp hl with rfl
        exact List.mem_cons_self _ _
      · rw [if_neg hstop] at hl
        rcases List.mem_cons.mp hl with rfl | hl
        · exact List.mem_cons_self _ _
        · exact List.mem_cons_of_mem x (ih l hl)

/-- With `REINGEST = False` the queryset keeps only `ingested=False` logs. -/
theorem selectLogs_no_reingest_not_ingested (allLogs : List DLog)
    (filters : List String) (logIds : List Nat) (command : String) :
    ∀ l ∈ selectLogs allLogs filters logIds command false, l.ingested = false := by
  intro l hl
  simp only [selectLogs, Bool.false_eq_true, if_false] at hl
  have h1 : ∀ m : List DLog, l ∈ m.filter (fun x => !x.ingested) → l.ingested = false := by
    intro m hm
    simpa using (List.mem_filter.mp hm).2
  split at hl
  · split at hl
    · exact h1 _ hl
    · exact h1 _ (List.mem_of_mem_filter hl)
  · split at hl
    · exact h1 _ (List.mem_of_mem_filter hl)
    · exact h1 _ (List.mem_of_mem_filter (List.mem_of_mem_filter hl))

/-- C6: with `REINGEST=False` the batch never invokes an ingestor on a log
whose `ingested` flag is already true: every selected log, and hence every
log the ingest loop attempts, has `ingested=false` — so a second run over
already-ingested logs invokes nothing and changes no topology entity. -/
theorem ingest_batch_skips_ingested_logs (allLogs : List DLog)
    (filters : List String) (logIds : List Nat) (command : String)
    (ok : DLog → Bool) (stopOnError : Bool) :
    ((selectLogs allLogs filters logIds command false).all fun l => !l.ingested) = true ∧
    ((runIngestLoop ok stopOnError
        (selectLogs allLogs filters logIds command false)).attempted.all
      fun l => !l.ingested) = true := by
  constructor
  · rw [List.all_eq_true]
    intro l hl
    simpa using selectLogs_no_reingest_not_ingested allLogs filters logIds command l hl
  · rw [List.all_eq_true]
    intro l hl
    have hmem := runIngestLoop_attempted_sub ok stopOnError _ l hl
    simpa using selectLogs_no_reingest_not_ingested allLogs filters logIds command l hmem

/-- With `STOP_ON_ERROR = False` the loop processes every log: all are
attempted, the successful ones are marked and saved, the failures are
reported, and nothing is raised. -/
theorem runIngestLoop_continue_eq (ok : DLog → Bool) (logs : List DLog) :
    runIngestLoop ok false logs =
      { attempted := logs
        succeeded := (logs.filter ok).map markIngested
        failedLogs := logs.filter (fun l => !(ok l))
        raised := false } := by
  induction logs with
  | nil => rfl
  | cons x xs ih =>
    by_cases hx : ok x = true
    · simp [runIngestLoop, hx, ih, List.filter_cons]
    · rw [Bool.not_eq_true] at hx
      simp [runIngestLoop, hx, ih, List.filter_cons]

/-- With `STOP_ON_ERROR = True` the loop runs up to the first failing log:
the logs before it are marked and saved, the failing one is not marked, the
exception is re-raised, and no later log is attempted. -/
theorem runIngestLoop_stop_eq (ok : DLog → Bool) (pre post : List DLog) (bad : DLog)
    (hpre : ∀ l ∈ pre, ok l = true) (hbad : ok bad = false) :
    runIngestLoop ok true (pre ++ bad :: post) =
      { attempted := pre ++ [bad]
        succeeded := pre.map markIngested
        failedLogs := [bad]
        raised := true } := by
  induction pre with
  | nil => simp [runIngestLoop, hbad]
  | cons x xs ih =>
    have hx := hpre x (List.mem_cons_self x xs)
    simp [runIngestLoop, hx, ih fun l hl => hpre l (List.mem_cons_of_mem x hl)]

/-- C7: in the replay tool's loop over the order-sorted selection, when every
log before `bad` ingests fine and `bad` raises: with `STOP_ON_ERROR=True`
(default) the logs before `bad` are marked, `bad`'s flag is not set, the
error propagates (`raised`), and no log after `bad` is attempted; with
`STOP_ON_ERROR=False` every log — including those after `bad` — is still
attempted and the failures are reported, with nothing raised. -/
theorem ingest_loop_stop_and_continue_modes (ok : DLog → Bool)
    (pre post : List DLog) (bad : DLog)
    (hpre : ∀ l ∈ pre, ok l = true) (hbad : ok bad = false) :
    (runIngestLoop ok true (pre ++ bad :: post) =
      { attempted := pre ++ [bad]
        succeeded := pre.map markIngested
        failedLogs := [bad]
        raised := true }) ∧
    (runIngestLoop ok false (pre ++ bad :: post) =
      { attempted := pre ++ bad :: post
        succeeded := ((pre ++ bad :: post).filter ok).map markIngested
        failedLogs := (pre ++ bad :: post).filter (fun l => !(ok l))
        raised := false }) :=
  ⟨runIngestLoop_stop_eq ok pre post bad hpre hbad,
   runIngestLoop_continue_eq ok (pre ++ bad :: post)⟩

/-- A parsed, not-yet-ingested log for the loop witnesses. -/
def wLog1 : DLog :=
  { id := 1, address := "10.0.0.1", command := "show inventory", order := 0,
    parsed := true, ingested := false }

/-- The log whose ingestion fails in the loop witnesses. -/
def wLog2 : DLog :=
  { id := 2, address := "10.0.0.2", command := "show inventory", order := 1,
    parsed := true, ingested := false }

/-- A log positioned after the failing one in the loop witnesses. -/
def wLog3 : DLog :=
  { id := 3, address := "10.0.0.3", command := "show inventory", order := 2,
    parsed := true, ingested := false }

/-- An ingestion outcome where exactly the log with id 2 fails. -/
def wOk : DLog → Bool := fun l => l.id != 2

/-- C7 witness: the two loop modes on the concrete sequence
`[wLog1, wLog2, wLog3]` where only `wLog2` fails. -/
theorem ingest_loop_stop_and_continue_modes_witness :
    (runIngestLoop wOk true ([wLog1] ++ wLog2 :: [wLog3]) =
      { attempted := [wLog1] ++ [wLog2]
        succeeded := [wLog1].map markIngested
        failedLogs := [wLog2]
        raised := true }) ∧
    (runIngestLoop wOk false ([wLog1] ++ wLog2 :: [wLog3]) =
      { attempted := [wLog1] ++ wLog2 :: [wLog3]
        succeeded := (([wLog1] ++ wLog2 :: [wLog3]).filter wOk).map markIngested
        failedLogs := ([wLog1] ++ wLog2 :: [wLog3]).filter (fun l => !(wOk l))
        raised := false }) :=
  ingest_loop_stop_and_continue_modes wOk [wLog1] [wLog3] wLog2
    (by
      intro l hl
      rcases List.mem_singleton.mp hl with rfl
      decide)
    (by decide)

end Netdoc
